import Mathlib

/-
Shallow embedding of `src/railway_quote_bot.py` (class RailwayQuoteBot).

Strings are modelled by Lean `String` (a sequence of unicode code points,
matching Python `str` length/slicing semantics on the BMP-free fragment the
program manipulates).  Remote effects (reading the tracking cell, fetching the
worksheet, publishing) are passed in as explicit outcome values; a Python
exception caught by a `try/except` block is an explicit `error`/`none` case of
those outcomes.  Each Lean definition mirrors one Python method.
-/

namespace QuoteBot

/-- Python truthiness of an optional string (`if x:` where `x` is `None` or a
`str`): `None` and the empty string are falsy. -/
def pyTruthy : Option String → Bool
  | none => false
  | some s => !(s == "")

/-- Python `x or d` for an optional string `x`: yields `d` when `x` is falsy. -/
def pyOrElse : Option String → String → String
  | none, d => d
  | some s, d => if s == "" then d else s

/-- Python `s.strip()` on a list of characters: drop leading and trailing
whitespace.  (Stated on the character list underlying a string so that it is
structurally recursive.) -/
def pyStripChars (l : List Char) : List Char :=
  ((l.dropWhile Char.isWhitespace).reverse.dropWhile Char.isWhitespace).reverse

/-- Python `s.strip()`. -/
def pyStrip (s : String) : String :=
  String.mk (pyStripChars s.data)

/-- Python `s[:n]` for a non-negative slice bound `n`. -/
def pySlice (s : String) (n : Nat) : String :=
  String.mk (s.data.take n)

/-- Python list subscription `l[i]` on an `int` index: non-negative indexes
count from the front, negative indexes count from the back, and `none` stands
for the `IndexError` raised when the index is out of range either way. -/
def pyGet {α : Type} (l : List α) (i : Int) : Option α :=
  if 0 ≤ i then l[i.toNat]?
  else if 0 ≤ (l.length : Int) + i then l[((l.length : Int) + i).toNat]?
  else none

/-- The row-cell interpretation used by `get_next_quote`:
`row_data[k].strip() if len(row_data) > k and row_data[k] else None`. -/
def cellAt (row_data : List String) (k : Nat) : Option String :=
  match row_data[k]? with
  | some s => if s == "" then none else some (pyStrip s)
  | none => none

/-- Decimal digit parsing for `pyInt?`: `some` exactly on a non-empty run of
digits. -/
def pyDigits? (l : List Char) : Option Nat :=
  if l.isEmpty then none
  else if l.all Char.isDigit then
    some (l.foldl (fun n c => 10 * n + (c.toNat - 48)) 0)
  else none

/-- Python `int(s)` on a string: optional surrounding whitespace, an optional
sign, then decimal digits; `none` stands for the `ValueError` raised on any
other input. -/
def pyInt? (s : String) : Option Int :=
  match pyStripChars s.data with
  | '-' :: d => (pyDigits? d).map (fun n => -(n : Int))
  | '+' :: d => (pyDigits? d).map (fun n => (n : Int))
  | d => (pyDigits? d).map (fun n => (n : Int))

/-- Outcome of reading the `tracking` worksheet's cell (1,1). -/
inductive TrackingRead : Type
  /-- The `tracking` worksheet exists and reading cell (1,1) returns `v`
  (`none` models a `None` cell value). -/
  | cellValue (v : Option String)
  /-- The `tracking` worksheet does not exist (`worksheet` raises). -/
  | notFound
  /-- Reading fails for any other reason (transport error and the like). -/
  | failure
deriving DecidableEq

/-- Embedding of `RailwayQuoteBot.get_current_row_index`.  The first component
is the returned row index; the second is the string written to the freshly
created tracking cell, when the creation path runs and succeeds
(`createSucceeds` tells whether `add_worksheet`/`update` succeed).  A
non-parsing truthy cell value takes the inner `except` path, where
`add_worksheet` raises because the sheet already exists, landing in the outer
handler that returns 2. -/
def get_current_row_index (r : TrackingRead) (createSucceeds : Bool) :
    Int × Option String :=
  match r with
  | TrackingRead.cellValue v =>
    match v with
    | some s =>
      if s == "" then (2, none)
      else
        match pyInt? s with
        | some n => (n, none)
        | none => (2, none)
    | none => (2, none)
  | TrackingRead.notFound => if createSucceeds then (2, some "2") else (2, none)
  | TrackingRead.failure => (2, none)

/-- The dictionary returned by `get_next_quote` on success. -/
structure Quote : Type where
  text : String
  author : Option String
  row : Int
deriving DecidableEq

/-- The cursor reset performed by `get_next_quote`:
`if current_row > total_rows: current_row = 2`. -/
def normalizeCursor (current_row : Int) (total_rows : Int) : Int :=
  if current_row > total_rows then 2 else current_row

/-- Embedding of `RailwayQuoteBot.get_next_quote`.  `current_row` is the value
`get_current_row_index` returned; `fetch` is the outcome of
`worksheet.get_all_values()` (`Except.error` models the exception path).  The
result pairs the returned quote (`none` models `return None`) with the value
passed to `update_current_row_index` (`none` when no write happens). -/
def get_next_quote (current_row₀ : Int)
    (fetch : Except Unit (List (List String))) : Option Quote × Option Int :=
  match fetch with
  | Except.error _ => (none, none)
  | Except.ok all_data =>
    let total_rows : Int := all_data.length
    let current_row := normalizeCursor current_row₀ total_rows
    if current_row ≤ total_rows then
      match pyGet all_data (current_row - 1) with
      | some row_data =>
        match cellAt row_data 0 with
        | some quote_text =>
          if quote_text == "" then (none, none)
          else
            let next_row :=
              if current_row + 1 > total_rows then 2 else current_row + 1
            (some ⟨quote_text, cellAt row_data 1, current_row⟩, some next_row)
        | none => (none, none)
      | none => (none, none)
    else (none, none)

/-- Embedding of `RailwayQuoteBot.format_tweet` as the pure function of the
quote text and optional author it is. -/
def format_tweet (quote_text : String) (author : Option String) : String :=
  let tweet := quote_text
  let tweet := if pyTruthy author then tweet ++ " - " ++ author.getD "" else tweet
  if tweet.length > 280 then
    let max_quote_length : Int :=
      280 - (" - ".length : Int) - ((pyOrElse author "").length : Int) - 2
    if max_quote_length > 50 then
      let quote_text₁ := pySlice quote_text (max_quote_length - 3).toNat ++ "..."
      let tweet₁ := quote_text₁
      if pyTruthy author then tweet₁ ++ " - " ++ author.getD "" else tweet₁
    else tweet
  else tweet

/-- Outcome of `twitter_client.create_tweet`. -/
inductive PublishOutcome : Type
  /-- The call raised an exception. -/
  | raised
  /-- The call returned a response; `data` models `response.data`:
  `none` is a falsy `data`, `some idv` a truthy `data` with `idv` the result of
  looking up the id key (`none` there models a `KeyError`). -/
  | response (data : Option (Option String))
deriving DecidableEq

/-- Embedding of `RailwayQuoteBot.post_quote`.  `quoteResult` is what
`get_next_quote` returned and `publish` maps the tweet text to the outcome of
`create_tweet`.  Every failure (no quote, falsy `response.data`, `KeyError` on
the identifier, raised exception) is caught and becomes `false`. -/
def post_quote (quoteResult : Option Quote)
    (publish : String → PublishOutcome) : Bool :=
  match quoteResult with
  | none => false
  | some q =>
    match publish (format_tweet q.text q.author) with
    | PublishOutcome.raised => false
    | PublishOutcome.response none => false
    | PublishOutcome.response (some none) => false
    | PublishOutcome.response (some (some _)) => true

/-- One scheduled run against a fixed table: the stored cursor after the run is
the written value when `get_next_quote` wrote one, and the old value
otherwise. -/
def runStep (all_data : List (List String)) (cursor : Int) : Int :=
  ((get_next_quote cursor (Except.ok all_data)).2).getD cursor

/-- The stored cursor after `k` runs against a fixed table, starting from
`start`. -/
def cursorIter (all_data : List (List String)) (start : Int) : Nat → Int
  | 0 => start
  | k + 1 => runStep all_data (cursorIter all_data start k)

/-! Theorems about the embedded program. -/

/-- C1 counterexample: with cursor 2 and a table whose row 2 has an empty
first cell, the run fails (first component `none`) and `get_next_quote`
performs NO cursor write (second component `none`) — the persisted cursor has
not been advanced past the malformed row, contradicting the claim that it has
already advanced. -/
theorem get_next_quote_malformed_cex :
    get_next_quote 2 (Except.ok [["h", "x"], ["", "y"], ["q", "z"]]) =
      (none, none) := by
  decide

/-- C1 (amended): when the selected row yields no usable text,
`get_next_quote` aborts with a no-valid-quote failure and the persisted cursor
is NOT advanced (no write occurs), so the malformed row is retried on the next
run rather than skipped. -/
theorem get_next_quote_malformed_no_advance (c : Int) (t : List (List String))
    (rd : List String)
    (hsel : pyGet t (normalizeCursor c (t.length : Int) - 1) = some rd)
    (hmal : pyTruthy (cellAt rd 0) = false) :
    get_next_quote c (Except.ok t) = (none, none) := by
  simp only [get_next_quote]
  by_cases hle : normalizeCursor c (t.length : Int) ≤ (t.length : Int)
  · rw [if_pos hle, hsel]
    cases hc : cellAt rd 0 with
    | none => simp only [hc]
    | some s =>
      have hs : (s == "") = true := by
        rw [hc] at hmal
        simpa [pyTruthy] using hmal
      simp only [hc, hs, if_true]
  · rw [if_neg hle]

/-- C1 witness for the amended theorem at a concrete input. -/
theorem get_next_quote_malformed_no_advance_witness :
    get_next_quote 7 (Except.ok [["h"], ["  "], ["q"]]) = (none, none) :=
  get_next_quote_malformed_no_advance 7 _ ["  "] (by decide) (by decide)

/-- C2 counterexample: for the persisted cursor value 0 and a 3-row table, the
normalization step leaves the cursor at 0, which is outside [2, 3], and a row
is nevertheless selected (the last row, via negative indexing) with recorded
row index 0. -/
theorem cursor_range_cex :
    normalizeCursor 0 3 = 0 ∧ ¬ (2 ≤ normalizeCursor 0 3) ∧
    (get_next_quote 0 (Except.ok [["h"], ["a"], ["b"]])).1 =
      some ⟨"b", none, 0⟩ := by
  decide

/-- C2 (amended): for every cursor value that is at least 2 and every table
with at least 2 rows, the normalized cursor lies within
[first data row, total rows] = [2, totalRows]. -/
theorem cursor_normalization_in_range (c N : Int) (hc : 2 ≤ c) (hN : 2 ≤ N) :
    2 ≤ normalizeCursor c N ∧ normalizeCursor c N ≤ N := by
  unfold normalizeCursor
  split <;> omega

/-- C2 witness for the amended theorem at a concrete input. -/
theorem cursor_normalization_in_range_witness :
    2 ≤ normalizeCursor 9 4 ∧ normalizeCursor 9 4 ≤ 4 :=
  cursor_normalization_in_range 9 4 (by decide) (by decide)

/-- C5: when the combined string (text, plus the author suffix when the author
is present) is at most 280 characters long, `format_tweet` returns it exactly,
with no truncation or other change. -/
theorem format_tweet_no_truncation (text : String) (author : Option String)
    (h : (if pyTruthy author then text ++ " - " ++ author.getD "" else
      text).length ≤ 280) :
    format_tweet text author =
      if pyTruthy author then text ++ " - " ++ author.getD "" else text := by
  unfold format_tweet
  simp only []
  rw [if_neg (by omega)]

/-- C5 witness at a concrete input. -/
theorem format_tweet_no_truncation_witness :
    format_tweet "Stay hungry" (some "Steve") = "Stay hungry - Steve" := by
  have h := format_tweet_no_truncation "Stay hungry" (some "Steve") (by decide)
  exact h

/-- C8: against a table with a single (header) row and stored cursor 2, every
run's selection fails with no valid quote and performs no cursor write, so the
stored cursor remains 2 across all repeated invocations. -/
theorem single_row_table_always_fails (h : List String) (k : Nat) :
    cursorIter [h] 2 k = 2 ∧
    get_next_quote (cursorIter [h] 2 k) (Except.ok [h]) = (none, none) := by
  have gnq2 : get_next_quote 2 (Except.ok [h]) = (none, none) := by
    unfold get_next_quote normalizeCursor
    simp
  induction k with
  | zero => exact ⟨rfl, gnq2⟩
  | succ k ih =>
    have hstep : cursorIter [h] 2 (k + 1) = 2 := by
      show runStep [h] (cursorIter [h] 2 k) = 2
      rw [ih.1]
      unfold runStep
      rw [gnq2]
      rfl
    rw [hstep]
    exact ⟨rfl, gnq2⟩

/-- C8 witness: after three runs against a header-only table the stored cursor
is still 2. -/
theorem single_row_table_always_fails_witness :
    cursorIter [["h"]] 2 3 = 2 :=
  (single_row_table_always_fails ["h"] 3).1

/-- C6: `get_current_row_index` returns the persisted value as an integer when
the tracking cell holds one; when the tracking sheet is missing it creates it
with default value "2" and returns 2; on any other read failure it returns 2
without persisting anything; and it is a total function, so it always returns
without raising. -/
theorem get_current_row_index_spec (r : TrackingRead) (b : Bool) :
    (∀ s n, r = TrackingRead.cellValue (some s) → (s == "") = false →
      pyInt? s = some n → get_current_row_index r b = (n, none)) ∧
    (r = TrackingRead.notFound → b = true →
      get_current_row_index r b = (2, some "2")) ∧
    (r = TrackingRead.failure → get_current_row_index r b = (2, none)) ∧
    ((get_current_row_index r b).1 = 2 ∨
      ∃ s, r = TrackingRead.cellValue (some s) ∧
        pyInt? s = some (get_current_row_index r b).1) := by
  refine ⟨?_, ?_, ?_, ?_⟩
  · rintro s n rfl hs hn
    simp [get_current_row_index, hs, hn]
  · rintro rfl rfl
    rfl
  · rintro rfl
    rfl
  · cases r with
    | cellValue v =>
      cases v with
      | none => exact Or.inl rfl
      | some s =>
        by_cases hs : (s == "") = true
        · exact Or.inl (by simp [get_current_row_index, hs])
        · cases hn : pyInt? s with
          | none => exact Or.inl (by simp [get_current_row_index, hs, hn])
          | some n =>
            refine Or.inr ⟨s, rfl, ?_⟩
            simp [get_current_row_index, hs, hn]
    | notFound => cases b <;> exact Or.inl rfl
    | failure => exact Or.inl rfl

/-- C6 witness at concrete inputs, covering the three behaviours. -/
theorem get_current_row_index_spec_witness :
    get_current_row_index (TrackingRead.cellValue (some "7")) false = (7, none) ∧
    get_current_row_index TrackingRead.notFound true = (2, some "2") ∧
    get_current_row_index TrackingRead.failure false = (2, none) :=
  ⟨(get_current_row_index_spec (TrackingRead.cellValue (some "7")) false).1
      "7" 7 rfl (by decide) (by decide),
    (get_current_row_index_spec TrackingRead.notFound true).2.1 rfl rfl,
    (get_current_row_index_spec TrackingRead.failure false).2.2.1 rfl⟩

/-- C7: `post_quote` is a total function (no exception reaches the caller) and
returns `true` exactly when a quote was found and the publish call's response
carries response data with a post identifier; in every other case — no quote,
response without data, missing identifier, or a raised exception — it returns
`false`. -/
theorem post_quote_spec (q : Option Quote) (publish : String → PublishOutcome) :
    post_quote q publish = true ↔
      ∃ qq, q = some qq ∧ ∃ idv,
        publish (format_tweet qq.text qq.author) =
          PublishOutcome.response (some (some idv)) := by
  cases q with
  | none => simp [post_quote]
  | some qq =>
    cases hp : publish (format_tweet qq.text qq.author) with
    | raised => simp [post_quote, hp]
    | response data =>
      cases data with
      | none => simp [post_quote, hp]
      | some idv =>
        cases idv with
        | none => simp [post_quote, hp]
        | some v => simp [post_quote, hp]

/-- C7 witness at a concrete input: a found quote published with a response
identifier yields `true`. -/
theorem post_quote_spec_witness :
    post_quote (some ⟨"q", none, 2⟩)
      (fun _ => PublishOutcome.response (some (some "1"))) = true :=
  (post_quote_spec (some ⟨"q", none, 2⟩)
    (fun _ => PublishOutcome.response (some (some "1")))).mpr
    ⟨⟨"q", none, 2⟩, rfl, "1", rfl⟩

/-- C9: `get_next_quote` writes a successor cursor value if and only if the
fetch succeeded, a row was selected in range, and that row's first cell
produced a non-empty trimmed text; moreover a quote is returned exactly when a
write happens, so on every failing path the stored cursor is not advanced. -/
theorem cursor_advance_iff_valid_text (c : Int)
    (f : Except Unit (List (List String))) :
    (((get_next_quote c f).2).isSome = true ↔
      ∃ t rd s, f = Except.ok t ∧
        normalizeCursor c (t.length : Int) ≤ (t.length : Int) ∧
        pyGet t (normalizeCursor c (t.length : Int) - 1) = some rd ∧
        cellAt rd 0 = some s ∧ (s == "") = false) ∧
    ((get_next_quote c f).1).isSome = ((get_next_quote c f).2).isSome := by
  cases f with
  | error e => simp [get_next_quote]
  | ok t =>
    simp only [get_next_quote]
    by_cases hle : normalizeCursor c (t.length : Int) ≤ (t.length : Int)
    · rw [if_pos hle]
      cases hg : pyGet t (normalizeCursor c (t.length : Int) - 1) with
      | none => simp [hg, hle]
      | some rd =>
        cases hc : cellAt rd 0 with
        | none => simp [hg, hc, hle]
        | some s =>
          by_cases hs : s = ""
          · simp [hg, hc, hs, hle]
          · simp [hg, hc, hs, hle]
    · rw [if_neg hle]
      simp [hle]

/-- C9 witness at a concrete input: a valid second row advances the cursor. -/
theorem cursor_advance_iff_valid_text_witness :
    ((get_next_quote 2 (Except.ok [["h"], ["a"]])).2).isSome = true :=
  (cursor_advance_iff_valid_text 2 (Except.ok [["h"], ["a"]])).1.mpr
    ⟨[["h"], ["a"]], ["a"], "a", rfl, by decide, by decide, by decide, by decide⟩

/-- C10: for stored cursor 0 and a non-empty table, `get_next_quote` does not
normalize the cursor to 2; it indexes the row list at -1 and so selects the
LAST row, and when that row's text is non-empty it returns it (recorded row 0)
and persists 1 as the next cursor — so the following run selects row 1, the
header row. -/
theorem cursor_zero_selects_last_row (t : List (List String)) (rd : List String)
    (s : String) (hlast : t.getLast? = some rd)
    (hcell : cellAt rd 0 = some s) (hs : (s == "") = false) :
    normalizeCursor 0 (t.length : Int) = 0 ∧
    get_next_quote 0 (Except.ok t) = (some ⟨s, cellAt rd 1, 0⟩, some 1) ∧
    (∀ rd₀ s₀, t[0]? = some rd₀ → cellAt rd₀ 0 = some s₀ → (s₀ == "") = false →
      (get_next_quote 1 (Except.ok t)).1 = some ⟨s₀, cellAt rd₀ 1, 1⟩) := by
  have hne : t ≠ [] := by
    intro h
    rw [h] at hlast
    simp at hlast
  have hlen : 1 ≤ t.length := List.length_pos.mpr hne
  have hnorm : normalizeCursor 0 (t.length : Int) = 0 := by
    unfold normalizeCursor
    rw [if_neg (by omega)]
  refine ⟨hnorm, ?_, ?_⟩
  · have hpg : pyGet t ((0 : Int) - 1) = some rd := by
      unfold pyGet
      rw [if_neg (by omega), if_pos (by omega)]
      have harg : (((t.length : Int)) + ((0 : Int) - 1)).toNat = t.length - 1 := by
        omega
      rw [harg, ← List.getLast?_eq_getElem?, hlast]
    simp only [get_next_quote, hnorm]
    rw [if_pos (by omega), hpg]
    simp only [hcell]
    rw [if_neg (by simp [hs]), if_neg (by omega)]
    norm_num
  · intro rd₀ s₀ h0 hc0 hs0
    have hnorm1 : normalizeCursor 1 (t.length : Int) = 1 := by
      unfold normalizeCursor
      rw [if_neg (by omega)]
    have hpg : pyGet t ((1 : Int) - 1) = some rd₀ := by
      unfold pyGet
      rw [if_pos (by omega)]
      have harg : ((1 : Int) - 1).toNat = 0 := by omega
      rw [harg, h0]
    simp only [get_next_quote, hnorm1]
    rw [if_pos (by omega), hpg]
    simp only [hc0]
    rw [if_neg (by simp [hs0])]

/-- C10 witness at a concrete two-row table. -/
theorem cursor_zero_selects_last_row_witness :
    get_next_quote 0 (Except.ok [["h", "H"], ["b", "B"]]) =
      (some ⟨"b", some "B", 0⟩, some 1) :=
  (cursor_zero_selects_last_row [["h", "H"], ["b", "B"]] ["b", "B"] "b"
    (by decide) (by decide) (by decide)).2.1

/-- Helper: on a table whose data rows (all rows after the header) have a
non-empty trimmed first cell, a run whose cursor is within [2, totalRows]
selects the row at that cursor and writes the wrapped successor cursor. -/
theorem gnq_select (t : List (List String))
    (hrows : ∀ rd ∈ t.drop 1, pyTruthy (cellAt rd 0) = true)
    (c : Int) (hc2 : 2 ≤ c) (hcN : c ≤ (t.length : Int)) :
    ∃ s rd, cellAt rd 0 = some s ∧
      get_next_quote c (Except.ok t) =
        (some ⟨s, cellAt rd 1, c⟩,
          some (if c + 1 > (t.length : Int) then 2 else c + 1)) := by
  have hnorm : normalizeCursor c (t.length : Int) = c := by
    unfold normalizeCursor
    rw [if_neg (by omega)]
  have hidx : (c - 1).toNat < t.length := by omega
  cases hg : t[(c - 1).toNat]? with
  | none =>
    have := List.getElem?_eq_none_iff.mp hg
    omega
  | some rd =>
    have hmem : rd ∈ t.drop 1 := by
      have h1 : (t.drop 1)[(c - 1).toNat - 1]? = some rd := by
        rw [List.getElem?_drop]
        have harg : 1 + ((c - 1).toNat - 1) = (c - 1).toNat := by omega
        rw [harg, hg]
      exact List.getElem?_mem h1
    have htr := hrows rd hmem
    cases hc : cellAt rd 0 with
    | none =>
      rw [hc] at htr
      simp [pyTruthy] at htr
    | some s =>
      have hsne : ¬ s = "" := by
        rw [hc] at htr
        simpa [pyTruthy] using htr
      refine ⟨s, rd, hc, ?_⟩
      have hpg : pyGet t (c - 1) = some rd := by
        unfold pyGet
        rw [if_pos (by omega), hg]
      simp only [get_next_quote, hnorm]
      rw [if_pos hcN, hpg]
      simp only [hc]
      rw [if_neg (by simp [hsne])]

/-- C3: against a table with `totalRows = N` (N at least 2) whose data rows
all have non-empty text, the run sequence started at cursor 2 visits the
cursors 2, 3, ..., N, 2, 3, ... cyclically (the k-th run uses cursor
`2 + k mod (N-1)`); each run selects the row at the current cursor — so never
row 1 (the header) and never a row beyond N — and persists
`cursor + 1`, wrapped to 2 when `cursor + 1 > N`. -/
theorem cursor_wraparound (t : List (List String))
    (hN : 2 ≤ (t.length : Int))
    (hrows : ∀ rd ∈ t.drop 1, pyTruthy (cellAt rd 0) = true) (k : Nat) :
    cursorIter t 2 k = 2 + (k : Int) % ((t.length : Int) - 1) ∧
    2 ≤ cursorIter t 2 k ∧ cursorIter t 2 k ≤ (t.length : Int) ∧
    ∃ q, (get_next_quote (cursorIter t 2 k) (Except.ok t)).1 = some q ∧
      q.row = cursorIter t 2 k ∧
      (get_next_quote (cursorIter t 2 k) (Except.ok t)).2 =
        some (if cursorIter t 2 k + 1 > (t.length : Int) then 2
          else cursorIter t 2 k + 1) := by
  have hn0 : ((t.length : Int) - 1) ≠ 0 := by omega
  have hnpos : (0 : Int) < (t.length : Int) - 1 := by omega
  have hstep : ∀ m : Nat,
      (if (2 + (m : Int) % ((t.length : Int) - 1)) + 1 > (t.length : Int)
        then 2 else (2 + (m : Int) % ((t.length : Int) - 1)) + 1) =
        2 + ((m : Int) + 1) % ((t.length : Int) - 1) := by
    intro m
    have h1 : 0 ≤ (m : Int) % ((t.length : Int) - 1) := Int.emod_nonneg _ hn0
    have h2 : (m : Int) % ((t.length : Int) - 1) < (t.length : Int) - 1 :=
      Int.emod_lt_of_pos _ hnpos
    have hsum : ((m : Int) + 1) % ((t.length : Int) - 1) =
        ((m : Int) % ((t.length : Int) - 1) + 1) % ((t.length : Int) - 1) := by
      have hde := Int.ediv_add_emod (m : Int) ((t.length : Int) - 1)
      have heq : (m : Int) + 1 = ((m : Int) % ((t.length : Int) - 1) + 1) +
          ((t.length : Int) - 1) * ((m : Int) / ((t.length : Int) - 1)) := by
        omega
      rw [heq, Int.add_mul_emod_self_left]
    by_cases hcase :
        (m : Int) % ((t.length : Int) - 1) + 1 < (t.length : Int) - 1
    · rw [hsum, Int.emod_eq_of_lt (by omega) hcase, if_neg (by omega)]
      omega
    · have hEq : (m : Int) % ((t.length : Int) - 1) + 1 =
          (t.length : Int) - 1 := by omega
      rw [hsum, hEq, Int.emod_self, if_pos (by omega)]
      norm_num
  have hform : ∀ m : Nat,
      cursorIter t 2 m = 2 + (m : Int) % ((t.length : Int) - 1) := by
    intro m
    induction m with
    | zero =>
      show (2 : Int) = 2 + ((0 : Nat) : Int) % ((t.length : Int) - 1)
      norm_num
    | succ m ih =>
      show runStep t (cursorIter t 2 m) = _
      rw [ih]
      have hb1 : 2 ≤ 2 + (m : Int) % ((t.length : Int) - 1) := by
        have := Int.emod_nonneg (m : Int) hn0
        omega
      have hb2 : 2 + (m : Int) % ((t.length : Int) - 1) ≤ (t.length : Int) := by
        have := Int.emod_lt_of_pos (m : Int) hnpos
        omega
      obtain ⟨s, rd, hc, hgnq⟩ := gnq_select t hrows _ hb1 hb2
      unfold runStep
      rw [hgnq]
      simp only [Option.getD_some]
      push_cast
      exact hstep m
  have hb1 : 2 ≤ cursorIter t 2 k := by
    rw [hform k]
    have := Int.emod_nonneg (k : Int) hn0
    omega
  have hb2 : cursorIter t 2 k ≤ (t.length : Int) := by
    rw [hform k]
    have := Int.emod_lt_of_pos (k : Int) hnpos
    omega
  obtain ⟨s, rd, hc, hgnq⟩ := gnq_select t hrows _ hb1 hb2
  refine ⟨hform k, hb1, hb2, ⟨s, cellAt rd 1, cursorIter t 2 k⟩, ?_, rfl, ?_⟩
  · rw [hgnq]
  · rw [hgnq]

/-- C3 witness on a concrete 3-row table, checked after five runs. -/
theorem cursor_wraparound_witness :
    cursorIter [["h"], ["a"], ["b"]] 2 5 = 3 := by
  have h := (cursor_wraparound [["h"], ["a"], ["b"]] (by decide)
    (by decide) 5).1
  rw [h]
  decide

/-- C4: when the combined string is longer than 280 characters and the
recomputed budget `280 - len(" - ") - len(author or "") - 2` exceeds 50,
`format_tweet` truncates the text to `budget - 3` characters, appends "...",
re-appends the author suffix when the author is present, and the result is at
most 280 characters long and ends with "..." followed by the author suffix
(or with "..." alone when the author is absent). -/
theorem format_tweet_truncation (text : String) (author : Option String)
    (hover : 280 <
      (if pyTruthy author then text ++ " - " ++ author.getD "" else
        text).length)
    (hbudget : 50 <
      280 - (" - ".length : Int) - ((pyOrElse author "").length : Int) - 2) :
    format_tweet text author =
      pySlice text (280 - (" - ".length : Int) -
          ((pyOrElse author "").length : Int) - 2 - 3).toNat ++ "..." ++
        (if pyTruthy author then " - " ++ author.getD "" else "") ∧
    (format_tweet text author).length ≤ 280 ∧
    ∃ pre, format_tweet text author =
      pre ++ ("..." ++
        (if pyTruthy author then " - " ++ author.getD "" else "")) := by
  have hlen3 : (" - ").length = 3 := rfl
  have hlend : ("...").length = 3 := rfl
  have hslice : ∀ n : Nat, n ≤ text.length → (pySlice text n).length = n := by
    intro n hn
    show (text.data.take n).length = n
    rw [List.length_take]
    exact min_eq_left hn
  have hmain : format_tweet text author =
      (if pyTruthy author
        then (pySlice text (280 - (" - ".length : Int) -
            ((pyOrElse author "").length : Int) - 2 - 3).toNat ++ "...") ++
          " - " ++ author.getD ""
        else pySlice text (280 - (" - ".length : Int) -
            ((pyOrElse author "").length : Int) - 2 - 3).toNat ++ "...") := by
    simp only [format_tweet]
    rw [if_pos hover, if_pos hbudget]
  cases author with
  | none =>
    have hover₁ : 280 < text.length := hover
    have hm₂ : format_tweet text none = pySlice text 272 ++ "..." :=
      hmain.trans rfl
    refine ⟨hm₂.trans (String.append_empty _).symm, ?_,
      ⟨pySlice text 272, hm₂.trans
        (congrArg (fun z => pySlice text 272 ++ z)
          (String.append_empty "...").symm)⟩⟩
    rw [hm₂, String.length_append, hslice 272 (by omega), hlend]
    omega
  | some a =>
    by_cases ha : a = ""
    · subst ha
      have hover₁ : 280 < text.length := hover
      have hm₂ : format_tweet text (some "") = pySlice text 272 ++ "..." :=
        hmain.trans rfl
      refine ⟨hm₂.trans (String.append_empty _).symm, ?_,
        ⟨pySlice text 272, hm₂.trans
          (congrArg (fun z => pySlice text 272 ++ z)
            (String.append_empty "...").symm)⟩⟩
      rw [hm₂, String.length_append, hslice 272 (by omega), hlend]
      omega
    · have hT : pyTruthy (some a) = true := by simp [pyTruthy, ha]
      have hOr : pyOrElse (some a) "" = a := by simp [pyOrElse, ha]
      simp only [hT, eq_self_iff_true, if_true, Option.getD_some] at hmain hover ⊢
      rw [hOr] at hmain hbudget ⊢
      rw [String.length_append, String.length_append, hlen3] at hover
      have hb : 50 < 280 - ((3 : Nat) : Int) - (a.length : Int) - 2 := by
        rw [hlen3] at hbudget
        exact hbudget
      have hKle : (280 - (" - ".length : Int) - (a.length : Int) -
          2 - 3).toNat ≤ text.length := by
        rw [hlen3]
        omega
      refine ⟨hmain.trans (String.append_assoc _ _ _), ?_,
        ⟨pySlice text (280 - (" - ".length : Int) - (a.length : Int) -
          2 - 3).toNat, hmain.trans (by simp only [String.append_assoc])⟩⟩
      rw [hmain, String.length_append, String.length_append,
        String.length_append, hslice _ hKle, hlend, hlen3]
      omega

set_option maxRecDepth 8000 in
/-- C4 witness: a 400-character text with a 10-character author formats to a
result of length at most 280. -/
theorem format_tweet_truncation_witness :
    (format_tweet (String.mk (List.replicate 400 'x'))
      (some "0123456789")).length ≤ 280 :=
  (format_tweet_truncation (String.mk (List.replicate 400 'x'))
    (some "0123456789") (by decide) (by decide)).2.1

end QuoteBot
